import Mathlib

/-!
Verification of the Wattflex residential battery control library
(`residential_battery_control/`): a shallow embedding of `battery.py`,
`epex_optimizer.py` and `epex_optimizer_nm.py` over exact rationals,
together with theorems settling the specification claims.

Modelling conventions:
* Python floats are modelled as `ℚ`; where NaN matters (input ingestion)
  a float is `Option ℚ` with `none` standing for NaN.
* Exceptions raised by the code (`AttributeError`, `ZeroDivisionError`,
  `IndexError`) are modelled with `Except String`.
* The scipy `linprog` solver is an external black box: it is a parameter
  of the optimize operations, returning `some solution` on success and
  `none` on failure.
* `numpy` arrays of constraint rows are modelled as `List (List ℚ × ℚ)`
  pairing each left-hand-side row with its right-hand-side bound (the
  source appends to two parallel lists `lhs`/`rhs` in lockstep).
-/

namespace Wattflex

/-- A Python float that may be NaN: `none` is NaN, `some q` a numeric value. -/
abbrev PFloat := Option ℚ

/-- `math.isnan` on the NaN-capable float model. -/
def isnan (x : PFloat) : Bool := x.isNone

/-- Python float addition: NaN propagates. -/
def pAdd (a b : PFloat) : PFloat :=
  match a, b with
  | some x, some y => some (x + y)
  | _, _ => none

/-- Python float multiplication: NaN propagates (the sources never multiply
NaN by zero, so the IEEE `NaN * 0 = NaN` rule is the only case needed). -/
def pMul (a b : PFloat) : PFloat :=
  match a, b with
  | some x, some y => some (x * y)
  | _, _ => none

/-- Round-half-to-even on a rational, as Python's builtin `round` ties. -/
def roundHalfEven (x : ℚ) : ℤ :=
  let f := Int.floor x
  let frac := x - f
  if frac < 1/2 then f
  else if 1/2 < frac then f + 1
  else if f % 2 = 0 then f else f + 1

/-- Python `round(x, n)`: round to `n` decimal places, ties to even. -/
def pyRound (x : ℚ) (n : ℕ) : ℚ :=
  (roundHalfEven (x * 10 ^ n) : ℚ) / 10 ^ n

/-- Dot product of two coefficient lists (trailing entries of the longer
list are ignored, as with `numpy` rows paired with a decision vector of
matching length). -/
def dot (a b : List ℚ) : ℚ := (List.zipWith (· * ·) a b).sum

/-- The Python slice `x[a:b]` (for `0 ≤ a ≤ b`). -/
def slice (x : List ℚ) (a b : ℕ) : List ℚ := (x.drop a).take (b - a)

/-- A decision vector satisfies an inequality system `A_ub x ≤ b_ub`. -/
def satIneq (sys : List (List ℚ × ℚ)) (v : List ℚ) : Prop :=
  ∀ p ∈ sys, dot p.1 v ≤ p.2

/-- A decision vector satisfies an equality system `A_eq x = b_eq`. -/
def satEq (sys : List (List ℚ × ℚ)) (v : List ℚ) : Prop :=
  ∀ p ∈ sys, dot p.1 v = p.2

instance (sys : List (List ℚ × ℚ)) (v : List ℚ) : Decidable (satIneq sys v) :=
  List.decidableBAll _ sys

instance (sys : List (List ℚ × ℚ)) (v : List ℚ) : Decidable (satEq sys v) :=
  List.decidableBAll _ sys

section DotLemmas

theorem dot_nil_left (v : List ℚ) : dot [] v = 0 := rfl

theorem dot_nil_right (a : List ℚ) : dot a [] = 0 := by
  cases a <;> rfl

theorem dot_cons_cons (x y : ℚ) (a v : List ℚ) :
    dot (x :: a) (y :: v) = x * y + dot a v := by
  simp [dot]

theorem dot_replicate_zero (n : ℕ) (v : List ℚ) :
    dot (List.replicate n 0) v = 0 := by
  induction n generalizing v with
  | zero => rfl
  | succ m ih =>
    cases v with
    | nil => exact dot_nil_right _
    | cons y v => rw [List.replicate_succ, dot_cons_cons, ih, zero_mul, zero_add]

theorem getD_replicate (n j : ℕ) (c : ℚ) (hj : j < n) :
    (List.replicate n c).getD j 0 = c := by
  induction n generalizing j with
  | zero => omega
  | succ m ih =>
    cases j with
    | zero => rfl
    | succ k => exact ih k (by omega)

theorem getD_replicate_zero (n j : ℕ) :
    (List.replicate n (0 : ℚ)).getD j 0 = 0 := by
  by_cases hj : j < n
  · exact getD_replicate n j 0 hj
  · rw [List.getD_eq_default]
    simpa using le_of_not_lt hj

theorem getD_set_ne (l : List ℚ) (i j : ℕ) (c : ℚ) (h : i ≠ j) :
    (l.set i c).getD j 0 = l.getD j 0 := by
  induction l generalizing i j with
  | nil => simp
  | cons a l ih =>
    cases i with
    | zero =>
      cases j with
      | zero => omega
      | succ k => simp [List.set]
    | succ m =>
      cases j with
      | zero => simp [List.set]
      | succ k => simpa [List.set] using ih m k (by omega)

/-- Writing value `c` into an in-range slot of a row that currently holds
coefficient `0` adds `c * v[j]` to the row's dot product with `v`. -/
theorem dot_set_zero (r v : List ℚ) (j : ℕ) (c : ℚ) (hj : j < r.length)
    (hr : r.getD j 0 = 0) : dot (r.set j c) v = dot r v + c * v.getD j 0 := by
  induction r generalizing v j with
  | nil => simp at hj
  | cons a r ih =>
    cases v with
    | nil => simp [dot_nil_right]
    | cons b v =>
      cases j with
      | zero =>
        simp only [List.getD_cons_zero] at hr
        rw [List.set, dot_cons_cons, dot_cons_cons, hr, zero_mul, zero_add,
          List.getD_cons_zero]
        ring
      | succ k =>
        simp only [List.getD_cons_succ] at hr
        simp only [List.length_cons, Nat.succ_lt_succ_iff] at hj
        rw [List.set, dot_cons_cons, dot_cons_cons, ih v k hj hr,
          List.getD_cons_succ]
        ring

/-- Dot product of a one-hot row (a zero row with one written coefficient). -/
theorem dot_single (n i : ℕ) (c : ℚ) (v : List ℚ) (hi : i < n) :
    dot ((List.replicate n 0).set i c) v = c * v.getD i 0 := by
  have h0 := getD_replicate_zero n i
  rw [dot_set_zero _ _ _ _ (by simpa using hi) h0, dot_replicate_zero,
    zero_add]

/-- Dot product of a zero row with two coefficients written at distinct
indices. -/
theorem dot_double (n i₁ i₂ : ℕ) (c₁ c₂ : ℚ) (v : List ℚ) (h : i₁ ≠ i₂)
    (h₁ : i₁ < n) (h₂ : i₂ < n) :
    dot (((List.replicate n 0).set i₁ c₁).set i₂ c₂) v =
      c₁ * v.getD i₁ 0 + c₂ * v.getD i₂ 0 := by
  have h0 : ((List.replicate n (0:ℚ)).set i₁ c₁).getD i₂ 0 = 0 := by
    rw [getD_set_ne _ _ _ _ h]
    exact getD_replicate_zero n i₂
  rw [dot_set_zero _ _ _ _ (by simpa using h₂) h0, dot_single _ _ _ _ h₁]

/-- Dot product of a zero row with three coefficients written at distinct
indices. -/
theorem dot_triple (n i₁ i₂ i₃ : ℕ) (c₁ c₂ c₃ : ℚ) (v : List ℚ)
    (h12 : i₁ ≠ i₂) (h13 : i₁ ≠ i₃) (h23 : i₂ ≠ i₃)
    (h₁ : i₁ < n) (h₂ : i₂ < n) (h₃ : i₃ < n) :
    dot ((((List.replicate n 0).set i₁ c₁).set i₂ c₂).set i₃ c₃) v =
      c₁ * v.getD i₁ 0 + c₂ * v.getD i₂ 0 + c₃ * v.getD i₃ 0 := by
  have h0 : (((List.replicate n (0:ℚ)).set i₁ c₁).set i₂ c₂).getD i₃ 0 = 0 := by
    rw [getD_set_ne _ _ _ _ h23, getD_set_ne _ _ _ _ h13]
    exact getD_replicate_zero n i₃
  rw [dot_set_zero _ _ _ _ (by simpa using h₃) h0,
    dot_double _ _ _ _ _ _ h12 h₁ h₂]

/-- Dot product of a zero row with four coefficients written at distinct
indices. -/
theorem dot_quad (n i₁ i₂ i₃ i₄ : ℕ) (c₁ c₂ c₃ c₄ : ℚ) (v : List ℚ)
    (h12 : i₁ ≠ i₂) (h13 : i₁ ≠ i₃) (h14 : i₁ ≠ i₄)
    (h23 : i₂ ≠ i₃) (h24 : i₂ ≠ i₄) (h34 : i₃ ≠ i₄)
    (h₁ : i₁ < n) (h₂ : i₂ < n) (h₃ : i₃ < n) (h₄ : i₄ < n) :
    dot (((((List.replicate n 0).set i₁ c₁).set i₂ c₂).set i₃ c₃).set i₄ c₄) v =
      c₁ * v.getD i₁ 0 + c₂ * v.getD i₂ 0 + c₃ * v.getD i₃ 0 +
        c₄ * v.getD i₄ 0 := by
  have h0 : ((((List.replicate n (0:ℚ)).set i₁ c₁).set i₂ c₂).set i₃ c₃).getD
      i₄ 0 = 0 := by
    rw [getD_set_ne _ _ _ _ h34, getD_set_ne _ _ _ _ h24,
      getD_set_ne _ _ _ _ h14]
    exact getD_replicate_zero n i₄
  rw [dot_set_zero _ _ _ _ (by simpa using h₄) h0,
    dot_triple _ _ _ _ _ _ _ _ h12 h13 h23 h₁ h₂ h₃]

end DotLemmas

/-! ## `battery.py`: the `Battery` class -/

/-- The fields stored by `Battery.__init__`. -/
structure Battery where
  min_soc : ℚ
  max_soc : ℚ
  battery_size : ℚ
  max_discharge_power : ℚ
  max_charge_power : ℚ
  discharge_ratio : ℚ
  charge_ratio : ℚ
  efficiency : ℚ
  deriving DecidableEq

/-- `Battery.__init__`: clamps `min_soc` into `[0,1)` (else `0`) and
`max_soc` into `(0,1]` (else `1`), stores the sizes and powers unchecked,
and derives the rounded charge/discharge ratios.  Python raises
`ZeroDivisionError` when `battery_size = 0` (the ratio divisions). -/
def Battery.init (battery_size min_soc max_soc max_discharge_power
    max_charge_power efficiency : ℚ) : Except String Battery :=
  let min_soc' := if 0 ≤ min_soc ∧ min_soc < 1 then min_soc else 0
  let max_soc' := if 0 < max_soc ∧ max_soc ≤ 1 then max_soc else 1
  if battery_size = 0 then .error "ZeroDivisionError"
  else .ok
    { min_soc := min_soc'
      max_soc := max_soc'
      battery_size := battery_size
      max_discharge_power := max_discharge_power
      max_charge_power := max_charge_power
      discharge_ratio := pyRound (max_discharge_power / battery_size) 3
      charge_ratio := pyRound (max_charge_power / battery_size) 3
      efficiency := efficiency }

/-! ## `epex_optimizer.py`: the general four-flow optimizer `EpexOptimizer` -/

/-- The series stored by `EpexOptimizer._set_period`. -/
structure PeriodData where
  electricity_use : List PFloat
  electricity_feedin : List PFloat
  prices : List PFloat
  prices_tax : List PFloat

/-- `EpexOptimizer._set_period`: reads the three dataframe columns,
replaces NaN by `0` in the usage and feed-in series (`[x if not
math.isnan(x) else 0 for x in ...]`), stores the prices unchanged, and
derives `prices_tax = p * (1 + tax_rate) + tax_per_kwh`. -/
def set_period (electricity_usage electricity_feedin price_euro_per_kwh :
    List PFloat) (tax_rate tax_per_kwh : ℚ) : PeriodData :=
  let el_use := electricity_usage.map (fun x => if isnan x then some 0 else x)
  let el_feedin :=
    electricity_feedin.map (fun x => if isnan x then some 0 else x)
  let prices := price_euro_per_kwh
  { electricity_use := el_use
    electricity_feedin := el_feedin
    prices := prices
    prices_tax :=
      prices.map (fun p => pAdd (pMul p (some (1 + tax_rate))) (some tax_per_kwh)) }

/-- `EpexOptimizer.__init__`'s interval handling: `'hour' ↦ 1`,
`'quarter' ↦ 0.25`; any other selector only prints
`'Invalid interval entered, assuming hour ...'` and leaves
`self.interval_fraction` unassigned (`none`). -/
def interval_fraction_of (interval : String) : Option ℚ :=
  if interval = "hour" then some 1
  else if interval = "quarter" then some (1/4)
  else none

/-- The mutable state of an `EpexOptimizer` instance.  `interval_fraction`
and `T` are `Option`s because Python only assigns them conditionally
(`interval_fraction` never on an invalid selector; `T` only inside
`LP_optimize`): reading an unassigned attribute raises `AttributeError`.
The stored series are the post-`_set_period` values in the NaN-free case
(NaN ingestion itself is modelled by `set_period` above). -/
structure EpexOptimizer where
  prices : List ℚ
  prices_tax : List ℚ
  electricity_use : List ℚ
  electricity_feedin : List ℚ
  battery : Battery
  start_soc : ℚ
  end_soc : ℚ
  tax_rate : ℚ
  tax_per_kwh : ℚ
  allow_grid_discharge : Bool
  allow_grid_charge : Bool
  cutoff : ℚ
  interval : String
  interval_fraction : Option ℚ
  M : ℚ
  T : Option ℕ
  opt : Option (List ℚ)

/-- `EpexOptimizer.__init__` (followed by `_set_period`), for NaN-free
inputs: stores the parameters, resolves the interval selector, sets
`M = 1000` and leaves `opt = None`; `T` is not assigned here. -/
def EpexOptimizer.init (prices electricity_use electricity_feedin : List ℚ)
    (battery : Battery) (start_soc end_soc tax_rate tax_per_kwh : ℚ)
    (allow_grid_discharge allow_grid_charge : Bool) (cutoff : ℚ)
    (interval : String) : EpexOptimizer :=
  { prices := prices
    prices_tax := prices.map (fun p => p * (1 + tax_rate) + tax_per_kwh)
    electricity_use := electricity_use
    electricity_feedin := electricity_feedin
    battery := battery
    start_soc := start_soc
    end_soc := end_soc
    tax_rate := tax_rate
    tax_per_kwh := tax_per_kwh
    allow_grid_discharge := allow_grid_discharge
    allow_grid_charge := allow_grid_charge
    cutoff := cutoff
    interval := interval
    interval_fraction := interval_fraction_of interval
    M := 1000
    T := none
    opt := none }

/-- The objective vector built in `EpexOptimizer.LP_optimize` (variable
layout `[gxt, zxt, gyt, zyt, xt, yt, st, zt]`, each block of length
`T = len(prices)`):
`[-p, -p_tax, +p_tax, +p] + [cutoff/(effective_size·efficiency)]*T + [0]*3T`. -/
def epexObjective (prices prices_tax : List ℚ) (battery : Battery)
    (cutoff : ℚ) : List ℚ :=
  let T := prices.length
  let effective_battery_size :=
    (battery.max_soc - battery.min_soc) * battery.battery_size
  (prices.map (fun p => -p)) ++ (prices_tax.map (fun p => -p)) ++
    prices_tax ++ prices ++
    List.replicate T (cutoff / (effective_battery_size * battery.efficiency)) ++
    List.replicate (3 * T) 0

/-- `EpexOptimizer._create_ineqality_constraints`, given the interval
fraction `f` (read from `self.interval_fraction`) and big constant `M`:
soc upper/lower bounds, `zyt ≤ feedin`, `zxt ≤ use`,
`xt ≤ f·max_discharge_power`, `yt ≤ f·max_charge_power`, and the big-M
pair `xt + M·zt ≤ M`, `yt − M·zt ≤ 0`. -/
def epexIneqSystem (T : ℕ) (battery : Battery)
    (electricity_feedin electricity_use : List ℚ) (f M : ℚ) :
    List (List ℚ × ℚ) :=
  ((List.range T).map (fun i =>
    ((List.replicate (8*T) (0:ℚ)).set (6*T + i) 1, battery.max_soc))) ++
  ((List.range T).map (fun i =>
    ((List.replicate (8*T) (0:ℚ)).set (6*T + i) (-1), -battery.min_soc))) ++
  ((List.range T).map (fun i =>
    ((List.replicate (8*T) (0:ℚ)).set (i + 3*T) 1,
      electricity_feedin.getD i 0))) ++
  ((List.range T).map (fun i =>
    ((List.replicate (8*T) (0:ℚ)).set (i + T) 1,
      electricity_use.getD i 0))) ++
  ((List.range T).map (fun i =>
    ((List.replicate (8*T) (0:ℚ)).set (i + 4*T) 1,
      battery.max_discharge_power * f))) ++
  ((List.range T).map (fun i =>
    ((List.replicate (8*T) (0:ℚ)).set (i + 5*T) 1,
      battery.max_charge_power * f))) ++
  ((List.range T).map (fun i =>
    (((List.replicate (8*T) (0:ℚ)).set (i + 7*T) M).set (i + 4*T) 1, M))) ++
  ((List.range T).map (fun i =>
    (((List.replicate (8*T) (0:ℚ)).set (i + 7*T) (-M)).set (i + 5*T) 1, 0)))

/-- `EpexOptimizer._create_equality_constraints`: the soc transition rows
(first row anchored at `start_soc`, rows `0 < i < T-1` free, last row
pinned to `-end_soc`), the flow decompositions `yt = gyt + zyt` and
`xt = gxt + zxt`, and the optional `Σ gxt = 0` / `Σ gyt = 0` rows when
grid discharge / grid charge is disallowed. -/
def epexEqSystem (T : ℕ) (battery : Battery) (start_soc end_soc : ℚ)
    (allow_grid_discharge allow_grid_charge : Bool) : List (List ℚ × ℚ) :=
  ((List.range T).map (fun i =>
    if i = 0 then
      ((((List.replicate (8*T) (0:ℚ)).set (6*T + i + 1) 1).set (4*T + i)
          (1 / (battery.battery_size * battery.efficiency))).set (5*T + i)
          (-1 / battery.battery_size),
        start_soc)
    else if i < T - 1 then
      (((((List.replicate (8*T) (0:ℚ)).set (6*T + i) (-1)).set (6*T + i + 1)
          1).set (4*T + i)
          (1 / (battery.battery_size * battery.efficiency))).set (5*T + i)
          (-1 / battery.battery_size),
        0)
    else
      ((((List.replicate (8*T) (0:ℚ)).set (6*T + i) (-1)).set (4*T + i)
          (1 / (battery.battery_size * battery.efficiency))).set (5*T + i)
          (-1 / battery.battery_size),
        -end_soc))) ++
  ((List.range T).map (fun i =>
    ((((List.replicate (8*T) (0:ℚ)).set (i + 2*T) 1).set (i + 3*T) 1).set
        (i + 5*T) (-1),
      0))) ++
  ((List.range T).map (fun i =>
    ((((List.replicate (8*T) (0:ℚ)).set i 1).set (i + T) 1).set (i + 4*T)
        (-1),
      0))) ++
  (if allow_grid_discharge then []
    else [(List.replicate T (1:ℚ) ++ List.replicate (7*T) 0, 0)]) ++
  (if allow_grid_charge then []
    else [(List.replicate (2*T) (0:ℚ) ++ List.replicate T 1 ++
      List.replicate (5*T) 0, 0)])

/-- Reading `self.T` where Python would raise `AttributeError` if
`LP_optimize` has not assigned it yet. -/
def EpexOptimizer.getT (m : EpexOptimizer) : Except String ℕ :=
  match m.T with
  | some T => .ok T
  | none => .error "AttributeError: T"

/-- `EpexOptimizer.LP_optimize`: sets `self.T = len(self.prices)`, builds
objective and constraints (raising `AttributeError` on an unassigned
`interval_fraction`), calls the external solver, and records the solution
(`opt := none` on solver failure). -/
def EpexOptimizer.LP_optimize (m : EpexOptimizer)
    (solver : List ℚ → List (List ℚ × ℚ) → List (List ℚ × ℚ) → List ℕ →
      Option (List ℚ)) : Except String EpexOptimizer :=
  let T := m.prices.length
  let m1 := { m with T := some T }
  let obj := epexObjective m1.prices m1.prices_tax m1.battery m1.cutoff
  match m1.interval_fraction with
  | none => .error "AttributeError: interval_fraction"
  | some f =>
    let lhs_ineq := epexIneqSystem T m1.battery m1.electricity_feedin
      m1.electricity_use f m1.M
    let lhs_eq := epexEqSystem T m1.battery m1.start_soc m1.end_soc
      m1.allow_grid_discharge m1.allow_grid_charge
    let integrality := List.replicate (7*T) 0 ++ List.replicate T 1
    match solver obj lhs_ineq lhs_eq integrality with
    | some x => .ok { m1 with opt := some x }
    | none => .ok { m1 with opt := none }

/-- `EpexOptimizer.get_grid_discharges`: zeros of length `T` when no
solution is recorded, otherwise `opt.x[0:T]`.  Reads `self.T` in both
branches. -/
def EpexOptimizer.get_grid_discharges (m : EpexOptimizer) :
    Except String (List ℚ) :=
  match m.opt with
  | none => do let T ← m.getT; pure (List.replicate T 0)
  | some x => do let T ← m.getT; pure (slice x 0 T)

/-- `EpexOptimizer.get_selfuse_discharges`: `opt.x[T:2T]`. -/
def EpexOptimizer.get_selfuse_discharges (m : EpexOptimizer) :
    Except String (List ℚ) :=
  match m.opt with
  | none => do let T ← m.getT; pure (List.replicate T 0)
  | some x => do let T ← m.getT; pure (slice x T (2*T))

/-- `EpexOptimizer.get_grid_charges`: `opt.x[2T:3T]`. -/
def EpexOptimizer.get_grid_charges (m : EpexOptimizer) :
    Except String (List ℚ) :=
  match m.opt with
  | none => do let T ← m.getT; pure (List.replicate T 0)
  | some x => do let T ← m.getT; pure (slice x (2*T) (3*T))

/-- `EpexOptimizer.get_solar_charges`: `opt.x[3T:4T]`. -/
def EpexOptimizer.get_solar_charges (m : EpexOptimizer) :
    Except String (List ℚ) :=
  match m.opt with
  | none => do let T ← m.getT; pure (List.replicate T 0)
  | some x => do let T ← m.getT; pure (slice x (3*T) (4*T))

/-- `EpexOptimizer.get_charges`: `opt.x[5T:6T]`. -/
def EpexOptimizer.get_charges (m : EpexOptimizer) :
    Except String (List ℚ) :=
  match m.opt with
  | none => do let T ← m.getT; pure (List.replicate T 0)
  | some x => do let T ← m.getT; pure (slice x (5*T) (6*T))

/-- `EpexOptimizer.get_discharges`: `opt.x[4T:5T]`. -/
def EpexOptimizer.get_discharges (m : EpexOptimizer) :
    Except String (List ℚ) :=
  match m.opt with
  | none => do let T ← m.getT; pure (List.replicate T 0)
  | some x => do let T ← m.getT; pure (slice x (4*T) (5*T))

/-- `EpexOptimizer.get_socs`: `opt.x[6T:7T]` with the first entry
overwritten by `start_soc` (`socs[0] = self.start_soc` raises `IndexError`
on an empty slice). -/
def EpexOptimizer.get_socs (m : EpexOptimizer) : Except String (List ℚ) :=
  match m.opt with
  | none => do let T ← m.getT; pure (List.replicate T 0)
  | some x => do
    let T ← m.getT
    let socs := slice x (6*T) (7*T)
    if socs.isEmpty then .error "IndexError: socs[0]"
    else pure (socs.set 0 m.start_soc)

/-- The per-period no-battery cost accumulated by `compute_yield`:
`Σ_i round(-feedin_i·price_i + use_i·price_tax_i, 6)` (both branches of
the source compute this same sum). -/
def EpexOptimizer.original_cost (m : EpexOptimizer) (T : ℕ) : ℚ :=
  (List.range T).foldl (fun acc i =>
    acc + pyRound (-(m.electricity_feedin.getD i 0) * m.prices.getD i 0 +
      m.electricity_use.getD i 0 * m.prices_tax.getD i 0) 6) 0

/-- `EpexOptimizer.compute_yield`: `(0, original_cost)` when no solution is
recorded; otherwise `(-extra_cost, original_cost + extra_cost)` with
`extra_cost = Σ_i [grid_charge_i·p_tax_i + solar_charge_i·p_i −
selfuse_discharge_i·p_tax_i − grid_discharge_i·p_i]`.  The source reads
every accessor (including `get_socs`) before the loop. -/
def EpexOptimizer.compute_yield (m : EpexOptimizer) :
    Except String (ℚ × ℚ) :=
  match m.opt with
  | none => do
    let T ← m.getT
    pure (0, m.original_cost T)
  | some _ => do
    let T ← m.getT
    let grid_discharge ← m.get_grid_discharges
    let selfuse_discharge ← m.get_selfuse_discharges
    let grid_charge ← m.get_grid_charges
    let solar_charge ← m.get_solar_charges
    let _discharge ← m.get_discharges
    let _charge ← m.get_charges
    let _soc ← m.get_socs
    let extra_cost := (List.range T).foldl (fun acc i =>
      acc + (grid_charge.getD i 0 * m.prices_tax.getD i 0 +
        solar_charge.getD i 0 * m.prices.getD i 0 -
        selfuse_discharge.getD i 0 * m.prices_tax.getD i 0 -
        grid_discharge.getD i 0 * m.prices.getD i 0)) 0
    pure (-extra_cost, m.original_cost T + extra_cost)

/-! ## `epex_optimizer_nm.py`: the net-metering optimizer `EpexOptimizerNM` -/

/-- The mutable state of an `EpexOptimizerNM` instance.  Unlike the general
model, `T` is assigned in `__init__`. -/
structure EpexOptimizerNM where
  prices : List ℚ
  battery : Battery
  cutoff : ℚ
  start_soc : ℚ
  end_soc : ℚ
  T : ℕ
  opt : Option (List ℚ)
  M : ℚ

/-- `EpexOptimizerNM.__init__`: stores the inputs unchanged (no NaN
sanitization is performed), sets `T = len(prices)`, `opt = None` and
`M = 10000000`. -/
def EpexOptimizerNM.init (prices : List ℚ) (battery : Battery)
    (start_soc end_soc cutoff : ℚ) : EpexOptimizerNM :=
  { prices := prices
    battery := battery
    cutoff := cutoff
    start_soc := start_soc
    end_soc := end_soc
    T := prices.length
    opt := none
    M := 10000000 }

/-- Modelled from the spec: `EpexOptimizerNM.set_socs(end_soc)` is
documented in the class docstring and invoked by the example driver
(`example_epex_optimizer_nm.py`), but its method body is absent from the
source file.  Per the spec it shifts the previously recorded
end-of-horizon soc into the new start-of-horizon soc and sets the new end
target to its argument. -/
def EpexOptimizerNM.set_socs (m : EpexOptimizerNM) (end_soc : ℚ) :
    EpexOptimizerNM :=
  { m with start_soc := m.end_soc, end_soc := end_soc }

/-- The objective vector built in `EpexOptimizerNM.LP_optimize` (variable
layout `[xt, yt, st, zt]`):
`[-p + cutoff/(effective_size·efficiency)] + [+p] + [0]*2T`. -/
def nmObjective (prices : List ℚ) (battery : Battery) (cutoff : ℚ) :
    List ℚ :=
  let T := prices.length
  let effective_battery_size :=
    (battery.max_soc - battery.min_soc) * battery.battery_size
  (prices.map (fun p =>
    -p + cutoff / (effective_battery_size * battery.efficiency))) ++
    prices ++ List.replicate (2 * T) 0

/-- `EpexOptimizerNM._create_ineqality_constraints`:
`xt ≤ max_discharge_power`, `yt ≤ max_charge_power`, soc upper/lower
bounds, and the big-M pair `xt + M·zt ≤ M`, `yt − M·zt ≤ 0`. -/
def nmIneqSystem (T : ℕ) (battery : Battery) (M : ℚ) :
    List (List ℚ × ℚ) :=
  ((List.range T).map (fun i =>
    ((List.replicate (4*T) (0:ℚ)).set i 1, battery.max_discharge_power))) ++
  ((List.range T).map (fun i =>
    ((List.replicate (4*T) (0:ℚ)).set (i + T) 1, battery.max_charge_power))) ++
  ((List.range T).map (fun i =>
    ((List.replicate (4*T) (0:ℚ)).set (2*T + i) 1, battery.max_soc))) ++
  ((List.range T).map (fun i =>
    ((List.replicate (4*T) (0:ℚ)).set (2*T + i) (-1), -battery.min_soc))) ++
  ((List.range T).map (fun i =>
    (((List.replicate (4*T) (0:ℚ)).set (i + 3*T) M).set i 1, M))) ++
  ((List.range T).map (fun i =>
    (((List.replicate (4*T) (0:ℚ)).set (i + 3*T) (-M)).set (i + T) 1, 0)))

/-- `EpexOptimizerNM._create_equality_constraints`: the soc transition rows
(first anchored at `start_soc`, intermediate free, last pinned to
`-end_soc`). -/
def nmEqSystem (T : ℕ) (battery : Battery) (start_soc end_soc : ℚ) :
    List (List ℚ × ℚ) :=
  (List.range T).map (fun i =>
    if i = 0 then
      ((((List.replicate (4*T) (0:ℚ)).set (2*T + i + 1) 1).set i
          (1 / (battery.battery_size * battery.efficiency))).set (T + i)
          (-1 / battery.battery_size),
        start_soc)
    else if i < T - 1 then
      (((((List.replicate (4*T) (0:ℚ)).set (2*T + i) (-1)).set (2*T + i + 1)
          1).set i
          (1 / (battery.battery_size * battery.efficiency))).set (T + i)
          (-1 / battery.battery_size),
        0)
    else
      ((((List.replicate (4*T) (0:ℚ)).set (2*T + i) (-1)).set i
          (1 / (battery.battery_size * battery.efficiency))).set (T + i)
          (-1 / battery.battery_size),
        -end_soc))

/-- `EpexOptimizerNM.LP_optimize`: builds objective and constraints,
calls the external solver, records the solution (`opt := none` on solver
failure). -/
def EpexOptimizerNM.LP_optimize (m : EpexOptimizerNM)
    (solver : List ℚ → List (List ℚ × ℚ) → List (List ℚ × ℚ) → List ℕ →
      Option (List ℚ)) : EpexOptimizerNM :=
  let obj := nmObjective m.prices m.battery m.cutoff
  let lhs_ineq := nmIneqSystem m.T m.battery m.M
  let lhs_eq := nmEqSystem m.T m.battery m.start_soc m.end_soc
  let integrality := List.replicate (3*m.T) 0 ++ List.replicate m.T 1
  match solver obj lhs_ineq lhs_eq integrality with
  | some x => { m with opt := some x }
  | none => { m with opt := none }

/-- `EpexOptimizerNM.get_charges`: zeros of length `T` when no solution is
recorded, else each entry of `opt.x[T:2T]` rounded to 4 decimals. -/
def EpexOptimizerNM.get_charges (m : EpexOptimizerNM) : List ℚ :=
  match m.opt with
  | none => List.replicate m.T 0
  | some x => (slice x (1*m.T) (2*m.T)).map (fun c => pyRound c 4)

/-- `EpexOptimizerNM.get_discharges`: zeros of length `T` when no solution
is recorded, else the absolute value of each entry of `opt.x[0:T]` rounded
to 4 decimals. -/
def EpexOptimizerNM.get_discharges (m : EpexOptimizerNM) : List ℚ :=
  match m.opt with
  | none => List.replicate m.T 0
  | some x => (slice x 0 (1*m.T)).map (fun dc => pyRound |dc| 4)

/-- `EpexOptimizerNM.get_socs`: zeros of length `T` when no solution is
recorded, else `opt.x[2T:3T]` with the first entry overwritten by
`start_soc` (`IndexError` on an empty slice). -/
def EpexOptimizerNM.get_socs (m : EpexOptimizerNM) :
    Except String (List ℚ) :=
  match m.opt with
  | none => .ok (List.replicate m.T 0)
  | some x =>
    let socs := slice x (2*m.T) (3*m.T)
    if socs.isEmpty then .error "IndexError: socs[0]"
    else .ok (socs.set 0 m.start_soc)

/-- `EpexOptimizerNM.compute_yield`: `0` when no solution is recorded, else
`Σ_i [discharge_i·price_i − charge_i·price_i]` over the rounded accessor
outputs (the source also reads `get_socs`, which can only raise for an
empty horizon with a recorded solution). -/
def EpexOptimizerNM.compute_yield (m : EpexOptimizerNM) :
    Except String ℚ :=
  match m.opt with
  | none => .ok 0
  | some _ => do
    let discharge := m.get_discharges
    let charge := m.get_charges
    let _soc ← m.get_socs
    pure ((List.range m.T).foldl (fun acc i =>
      acc + (discharge.getD i 0 * m.prices.getD i 0 -
        charge.getD i 0 * m.prices.getD i 0)) 0)

/-! ## Helper lemmas and concrete instances -/

theorem getD_map_lt (f : ℚ → ℚ) (l : List ℚ) (t : ℕ) (h : t < l.length) :
    (l.map f).getD t 0 = f (l.getD t 0) := by
  rw [List.getD_eq_getElem _ _ (by simpa using h), List.getD_eq_getElem _ _ h,
    List.getElem_map]

/-- The battery produced by `Battery(1, 0, 1, 1, 1, 1)` (the class
defaults). -/
def batteryUnit : Battery :=
  { min_soc := 0
    max_soc := 1
    battery_size := 1
    max_discharge_power := 1
    max_charge_power := 1
    discharge_ratio := 1
    charge_ratio := 1
    efficiency := 1 }

theorem batteryUnit_is_default : Battery.init 1 0 1 1 1 1 = .ok batteryUnit := by
  norm_num [Battery.init, batteryUnit, pyRound, roundHalfEven]

/-! ## Claim C9: `Battery` construction -/

/-- C9 (counterexample): constructing a battery with capacity `0` raises
`ZeroDivisionError` (the `discharge_ratio` division), so the constructor
is not total over all numeric inputs. -/
theorem battery_init_zero_size_raises :
    Battery.init 0 0 1 1 1 1 = .error "ZeroDivisionError" := by
  simp [Battery.init]

/-- C9 (amended): for every numeric input with nonzero capacity — including
negative capacity or power — `Battery.__init__` succeeds, clamps `min_soc`
to `0` when outside `[0,1)` and `max_soc` to `1` when outside `(0,1]`, and
stores the remaining values unvalidated. -/
theorem battery_init_total_of_size_ne_zero
    (battery_size min_soc max_soc max_discharge_power max_charge_power
      efficiency : ℚ) (h : battery_size ≠ 0) :
    ∃ b, Battery.init battery_size min_soc max_soc max_discharge_power
        max_charge_power efficiency = .ok b ∧
      b.min_soc = (if 0 ≤ min_soc ∧ min_soc < 1 then min_soc else 0) ∧
      b.max_soc = (if 0 < max_soc ∧ max_soc ≤ 1 then max_soc else 1) ∧
      b.battery_size = battery_size ∧
      b.max_discharge_power = max_discharge_power ∧
      b.max_charge_power = max_charge_power ∧
      b.efficiency = efficiency := by
  simp only [Battery.init, if_neg h]
  exact ⟨_, rfl, rfl, rfl, rfl, rfl, rfl, rfl⟩

/-- C9 (witness): a battery with negative capacity and power and
out-of-range soc bounds is accepted, with both bounds clamped. -/
theorem battery_init_total_of_size_ne_zero_witness :
    ∃ b, Battery.init (-2) (3/2) 2 (-1) 0 (1/2) = .ok b ∧
      b.min_soc = (if 0 ≤ (3/2:ℚ) ∧ (3/2:ℚ) < 1 then (3/2:ℚ) else 0) ∧
      b.max_soc = (if 0 < (2:ℚ) ∧ (2:ℚ) ≤ 1 then (2:ℚ) else 1) ∧
      b.battery_size = -2 ∧
      b.max_discharge_power = -1 ∧
      b.max_charge_power = 0 ∧
      b.efficiency = 1/2 :=
  battery_init_total_of_size_ne_zero (-2) (3/2) 2 (-1) 0 (1/2) (by norm_num)

/-! ## Claim C5: `set_socs` horizon chaining (modelled from the spec) -/

/-- C5: `set_socs(end_soc)` shifts the previously recorded end-of-horizon
soc into the new start-of-horizon soc, sets the new end target to its
argument, and leaves every other field (prices, battery, cutoff, horizon
length, recorded solution, big-M) untouched, so consecutive horizons chain
state-of-charge continuity without external bookkeeping. -/
theorem set_socs_chains_horizons (m : EpexOptimizerNM) (e : ℚ) :
    (m.set_socs e).start_soc = m.end_soc ∧
    (m.set_socs e).end_soc = e ∧
    (m.set_socs e).prices = m.prices ∧
    (m.set_socs e).battery = m.battery ∧
    (m.set_socs e).cutoff = m.cutoff ∧
    (m.set_socs e).T = m.T ∧
    (m.set_socs e).opt = m.opt ∧
    (m.set_socs e).M = m.M :=
  ⟨rfl, rfl, rfl, rfl, rfl, rfl, rfl, rfl⟩

/-! ## Claim C6: invalid interval selector -/

/-- C6 (code bug, evaluated at the failing input): constructing the general
model with `interval = 'day'` leaves `interval_fraction` unassigned, and a
subsequent `LP_optimize` call raises `AttributeError` instead of falling
back to the hourly fraction `1` — contradicting the code's own diagnostic
`'Invalid interval entered, assuming hour'`.  The recognized selectors do
assign `1` and `0.25`. -/
theorem invalid_interval_raises_on_optimize :
    interval_fraction_of "hour" = some 1 ∧
    interval_fraction_of "quarter" = some (1/4) ∧
    interval_fraction_of "day" = none ∧
    (EpexOptimizer.init [1] [1] [1] batteryUnit 0 0 0 0 true true 0
        "day").LP_optimize (fun _ _ _ _ => none) =
      .error "AttributeError: interval_fraction" :=
  ⟨rfl, rfl, rfl, rfl⟩

/-! ## Claim C1: objective vectors -/

theorem getD_take (a rest : List ℚ) (i : ℕ) (h : i < a.length) :
    (a ++ rest).getD i 0 = a.getD i 0 := List.getD_append a rest 0 i h

theorem getD_skip (a rest : List ℚ) (i : ℕ) :
    (a ++ rest).getD (a.length + i) 0 = rest.getD i 0 := by
  rw [List.getD_append_right a rest 0 _ (Nat.le_add_right _ _)]
  congr 1
  omega

/-- The general-model objective as the spec states it (refinement
comparison only, written from the spec's words, not from the source): the
idle-state penalty `cutoffRate = cutoff/(effectiveCapacity·efficiency)`
sits on the soc block, and the total-discharge and total-charge blocks
carry coefficient `0`. -/
def specEpexObjective (prices prices_tax : List ℚ) (battery : Battery)
    (cutoff : ℚ) : List ℚ :=
  let T := prices.length
  let r := cutoff /
    ((battery.max_soc - battery.min_soc) * battery.battery_size *
      battery.efficiency)
  (prices.map (fun p => -p)) ++ (prices_tax.map (fun p => -p)) ++
    prices_tax ++ prices ++ List.replicate T 0 ++ List.replicate T 0 ++
    List.replicate T r ++ List.replicate T 0

/-- The net-metering objective as the spec states it (refinement
comparison only): `-price` on the discharge block, `+price` on the charge
block, `cutoffRate` on the soc block, `0` on the boolean block. -/
def specNmObjective (prices : List ℚ) (battery : Battery) (cutoff : ℚ) :
    List ℚ :=
  let T := prices.length
  let r := cutoff /
    ((battery.max_soc - battery.min_soc) * battery.battery_size *
      battery.efficiency)
  (prices.map (fun p => -p)) ++ prices ++ List.replicate T r ++
    List.replicate T 0

/-- C1 (counterexample): with one period, price `1`, the default unit
battery and `cutoff = 1`, both built objective vectors differ from the
spec's description — the code places the cutoff rate on the (total)
discharge coefficients while the soc coefficients stay `0`. -/
theorem objective_cutoff_not_on_soc :
    epexObjective [1] [1] batteryUnit 1 ≠ specEpexObjective [1] [1] batteryUnit 1 ∧
    nmObjective [1] batteryUnit 1 ≠ specNmObjective [1] batteryUnit 1 := by
  constructor <;>
    norm_num [epexObjective, specEpexObjective, nmObjective, specNmObjective,
      batteryUnit, List.replicate]

/-- C1 (amended): in the minimized objective vector, for every period
`t < T` the flow variables carry their (taxed) price coefficients
(`-price` on grid discharge, `-taxedPrice` on self-use discharge,
`+taxedPrice` on grid charge, `+price` on solar charge; `-price + rate`
on the net-metering discharge, `+price` on its charge), the penalty rate
`cutoff/(effectiveCapacity·efficiency)` sits on the TOTAL-DISCHARGE block
(not the soc block), and the total-charge, soc and boolean coefficients
are `0`. -/
theorem objective_coefficients :
    (∀ (prices prices_tax : List ℚ) (bat : Battery) (cutoff : ℚ),
      prices_tax.length = prices.length →
      ∀ t, t < prices.length →
      (epexObjective prices prices_tax bat cutoff).length = 8 * prices.length ∧
      (epexObjective prices prices_tax bat cutoff).getD t 0 =
        -(prices.getD t 0) ∧
      (epexObjective prices prices_tax bat cutoff).getD (prices.length + t) 0 =
        -(prices_tax.getD t 0) ∧
      (epexObjective prices prices_tax bat cutoff).getD
          (2 * prices.length + t) 0 = prices_tax.getD t 0 ∧
      (epexObjective prices prices_tax bat cutoff).getD
          (3 * prices.length + t) 0 = prices.getD t 0 ∧
      (epexObjective prices prices_tax bat cutoff).getD
          (4 * prices.length + t) 0 =
        cutoff / ((bat.max_soc - bat.min_soc) * bat.battery_size *
          bat.efficiency) ∧
      (epexObjective prices prices_tax bat cutoff).getD
          (5 * prices.length + t) 0 = 0 ∧
      (epexObjective prices prices_tax bat cutoff).getD
          (6 * prices.length + t) 0 = 0 ∧
      (epexObjective prices prices_tax bat cutoff).getD
          (7 * prices.length + t) 0 = 0) ∧
    (∀ (prices : List ℚ) (bat : Battery) (cutoff : ℚ),
      ∀ t, t < prices.length →
      (nmObjective prices bat cutoff).length = 4 * prices.length ∧
      (nmObjective prices bat cutoff).getD t 0 =
        -(prices.getD t 0) +
          cutoff / ((bat.max_soc - bat.min_soc) * bat.battery_size *
            bat.efficiency) ∧
      (nmObjective prices bat cutoff).getD (prices.length + t) 0 =
        prices.getD t 0 ∧
      (nmObjective prices bat cutoff).getD (2 * prices.length + t) 0 = 0 ∧
      (nmObjective prices bat cutoff).getD (3 * prices.length + t) 0 = 0) := by
  constructor
  · intro prices prices_tax bat cutoff hlen t ht
    have hobj : epexObjective prices prices_tax bat cutoff =
        (prices.map fun p => -p) ++ ((prices_tax.map fun p => -p) ++
          (prices_tax ++ (prices ++
            (List.replicate prices.length
              (cutoff / ((bat.max_soc - bat.min_soc) * bat.battery_size *
                bat.efficiency)) ++
              List.replicate (3 * prices.length) 0)))) := by
      simp [epexObjective, List.append_assoc]
    have la : (prices.map fun p => -p).length = prices.length := by simp
    have lb : (prices_tax.map fun p => -p).length = prices.length := by
      simp [hlen]
    refine ⟨?_, ?_, ?_, ?_, ?_, ?_, ?_, ?_, ?_⟩
    · simp only [hobj, List.length_append, List.length_map,
        List.length_replicate, hlen]
      omega
    · rw [hobj, getD_take _ _ t (by simpa using ht), getD_map_lt _ _ _ ht]
    · rw [hobj, show prices.length + t = (prices.map fun p => -p).length + t
        by rw [la], getD_skip,
        getD_take _ _ t (by simpa [hlen] using ht),
        getD_map_lt _ _ _ (by rw [hlen]; exact ht)]
    · rw [hobj, show 2 * prices.length + t = (prices.map fun p => -p).length +
          ((prices_tax.map fun p => -p).length + t) by rw [la, lb]; omega,
        getD_skip, getD_skip, getD_take _ _ t (by rw [hlen]; exact ht)]
    · rw [hobj, show 3 * prices.length + t = (prices.map fun p => -p).length +
          ((prices_tax.map fun p => -p).length + (prices_tax.length + t))
          by rw [la, lb, hlen]; omega,
        getD_skip, getD_skip, getD_skip, getD_take _ _ t ht]
    · rw [hobj, show 4 * prices.length + t = (prices.map fun p => -p).length +
          ((prices_tax.map fun p => -p).length + (prices_tax.length +
            (prices.length + t))) by rw [la, lb, hlen]; omega,
        getD_skip, getD_skip, getD_skip, getD_skip,
        getD_take _ _ t (by simpa using ht), getD_replicate _ _ _ ht]
    · rw [hobj, show 5 * prices.length + t = (prices.map fun p => -p).length +
          ((prices_tax.map fun p => -p).length + (prices_tax.length +
            (prices.length + (prices.length + t))))
          by rw [la, lb, hlen]; omega,
        getD_skip, getD_skip, getD_skip, getD_skip,
        show prices.length + t =
          (List.replicate prices.length
            (cutoff / ((bat.max_soc - bat.min_soc) * bat.battery_size *
              bat.efficiency))).length + t by simp,
        getD_skip, getD_replicate_zero]
    · rw [hobj, show 6 * prices.length + t = (prices.map fun p => -p).length +
          ((prices_tax.map fun p => -p).length + (prices_tax.length +
            (prices.length + ((List.replicate prices.length
              (cutoff / ((bat.max_soc - bat.min_soc) * bat.battery_size *
                bat.efficiency))).length + (prices.length + t)))))
          by simp [hlen]; omega,
        getD_skip, getD_skip, getD_skip, getD_skip, getD_skip,
        getD_replicate_zero]
    · rw [hobj, show 7 * prices.length + t = (prices.map fun p => -p).length +
          ((prices_tax.map fun p => -p).length + (prices_tax.length +
            (prices.length + ((List.replicate prices.length
              (cutoff / ((bat.max_soc - bat.min_soc) * bat.battery_size *
                bat.efficiency))).length + (2 * prices.length + t)))))
          by simp [hlen]; omega,
        getD_skip, getD_skip, getD_skip, getD_skip, getD_skip,
        getD_replicate_zero]
  · intro prices bat cutoff t ht
    have hobj : nmObjective prices bat cutoff =
        (prices.map fun p => -p + cutoff /
          ((bat.max_soc - bat.min_soc) * bat.battery_size *
            bat.efficiency)) ++
          (prices ++ List.replicate (2 * prices.length) 0) := by
      simp [nmObjective, List.append_assoc]
    have la : (prices.map fun p => -p + cutoff /
        ((bat.max_soc - bat.min_soc) * bat.battery_size *
          bat.efficiency)).length = prices.length := by simp
    refine ⟨?_, ?_, ?_, ?_, ?_⟩
    · simp only [hobj, List.length_append, List.length_map,
        List.length_replicate]
      omega
    · rw [hobj, getD_take _ _ t (by simpa using ht), getD_map_lt _ _ _ ht]
    · rw [hobj, show prices.length + t = (prices.map fun p => -p + cutoff /
          ((bat.max_soc - bat.min_soc) * bat.battery_size *
            bat.efficiency)).length + t by rw [la],
        getD_skip, getD_take _ _ t ht]
    · rw [hobj, show 2 * prices.length + t = (prices.map fun p => -p + cutoff /
          ((bat.max_soc - bat.min_soc) * bat.battery_size *
            bat.efficiency)).length + (prices.length + t)
          by rw [la]; omega,
        getD_skip, getD_skip, getD_replicate_zero]
    · rw [hobj, show 3 * prices.length + t = (prices.map fun p => -p + cutoff /
          ((bat.max_soc - bat.min_soc) * bat.battery_size *
            bat.efficiency)).length + (prices.length + (prices.length + t))
          by rw [la]; omega,
        getD_skip, getD_skip, getD_replicate_zero]

/-- C1 (witness): the coefficient layout evaluated on a concrete
two-period instance. -/
theorem objective_coefficients_witness :
    (epexObjective [2, 5] [3, 7] batteryUnit 1).length = 8 * 2 ∧
    (epexObjective [2, 5] [3, 7] batteryUnit 1).getD 1 0 = -5 ∧
    (epexObjective [2, 5] [3, 7] batteryUnit 1).getD 9 0 = 1 := by
  have h := (objective_coefficients.1 [2, 5] [3, 7] batteryUnit 1 (by simp)
    1 (by norm_num))
  refine ⟨h.1, ?_, ?_⟩
  · have h2 := h.2.1
    norm_num at h2 ⊢
    exact h2
  · have h5 := h.2.2.2.2.2.1
    norm_num [batteryUnit] at h5 ⊢
    exact h5

/-! ## Claim C8: NaN sanitization at ingestion -/

/-- C8 (counterexample): a NaN price entry is NOT replaced by `0` by
`_set_period` — it is stored unchanged and propagates into the taxed
price series (hence into objective coefficients). -/
theorem nan_price_not_sanitized :
    (set_period [some 1] [some 1] [none] 0 0).prices = [none] ∧
    (set_period [some 1] [some 1] [none] 0 0).prices_tax = [none] ∧
    isnan ((set_period [some 1] [some 1] [none] 0 0).prices.getD 0
      (some 0)) = true :=
  ⟨rfl, rfl, rfl⟩

/-- C8 (amended): `_set_period` replaces NaN by `0` only in the usage and
feed-in series; the price series is stored unchanged (and the
net-metering model performs no sanitization at all — its `__init__`
stores the raw price list). -/
theorem set_period_sanitizes_use_and_feedin_only
    (electricity_usage electricity_feedin price_euro_per_kwh : List PFloat)
    (tax_rate tax_per_kwh : ℚ) :
    (∀ x ∈ (set_period electricity_usage electricity_feedin
        price_euro_per_kwh tax_rate tax_per_kwh).electricity_use,
      isnan x = false) ∧
    (∀ x ∈ (set_period electricity_usage electricity_feedin
        price_euro_per_kwh tax_rate tax_per_kwh).electricity_feedin,
      isnan x = false) ∧
    (set_period electricity_usage electricity_feedin price_euro_per_kwh
        tax_rate tax_per_kwh).prices = price_euro_per_kwh ∧
    (set_period electricity_usage electricity_feedin price_euro_per_kwh
        tax_rate tax_per_kwh).prices_tax = price_euro_per_kwh.map
      (fun p => pAdd (pMul p (some (1 + tax_rate))) (some tax_per_kwh)) := by
  refine ⟨?_, ?_, rfl, rfl⟩ <;>
  · intro x hx
    simp only [set_period, List.mem_map] at hx
    obtain ⟨y, _, rfl⟩ := hx
    cases y with
    | none => simp [isnan]
    | some a => simp [isnan]

/-- C8 (witness): sanitization evaluated on concrete series with a NaN
usage entry and a numeric price entry. -/
theorem set_period_sanitizes_use_and_feedin_only_witness :
    isnan ((set_period [none] [some 2] [some 3] (1/2)
      (1/10)).electricity_use.getD 0 (some 5)) = false ∧
    (set_period [none] [some 2] [some 3] (1/2) (1/10)).prices = [some 3] :=
  ⟨(set_period_sanitizes_use_and_feedin_only [none] [some 2] [some 3]
      (1/2) (1/10)).1 _ (by simp [set_period]),
    (set_period_sanitizes_use_and_feedin_only [none] [some 2] [some 3]
      (1/2) (1/10)).2.2.1⟩

/-! ## Claim C10: rounding in the net-metering accessors -/

theorem roundHalfEven_nonneg (x : ℚ) (hx : 0 ≤ x) : 0 ≤ roundHalfEven x := by
  have h0 : (0:ℤ) ≤ ⌊x⌋ := Int.floor_nonneg.mpr hx
  have hdef : roundHalfEven x =
      if x - (⌊x⌋ : ℚ) < 1/2 then ⌊x⌋
      else if 1/2 < x - (⌊x⌋ : ℚ) then ⌊x⌋ + 1
      else if ⌊x⌋ % 2 = 0 then ⌊x⌋ else ⌊x⌋ + 1 := rfl
  rw [hdef]
  split_ifs <;> omega

theorem pyRound_nonneg (x : ℚ) (n : ℕ) (hx : 0 ≤ x) : 0 ≤ pyRound x n := by
  unfold pyRound
  apply div_nonneg
  · exact_mod_cast roundHalfEven_nonneg _ (by positivity)
  · positivity

theorem roundHalfEven_eq_floor (x : ℚ) (h : x - ⌊x⌋ < 1/2) :
    roundHalfEven x = ⌊x⌋ := by
  have hdef : roundHalfEven x =
      if x - (⌊x⌋ : ℚ) < 1/2 then ⌊x⌋
      else if 1/2 < x - (⌊x⌋ : ℚ) then ⌊x⌋ + 1
      else if ⌊x⌋ % 2 = 0 then ⌊x⌋ else ⌊x⌋ + 1 := rfl
  rw [hdef, if_pos h]

theorem roundHalfEven_eq_floor_add_one (x : ℚ) (h : 1/2 < x - ⌊x⌋) :
    roundHalfEven x = ⌊x⌋ + 1 := by
  have hdef : roundHalfEven x =
      if x - (⌊x⌋ : ℚ) < 1/2 then ⌊x⌋
      else if 1/2 < x - (⌊x⌋ : ℚ) then ⌊x⌋ + 1
      else if ⌊x⌋ % 2 = 0 then ⌊x⌋ else ⌊x⌋ + 1 := rfl
  rw [hdef, if_neg (by linarith), if_pos h]

/-- C10: with a recorded solution, the net-metering `get_charges` returns
each solver charge entry rounded to 4 decimals and `get_discharges` the
absolute value of each solver discharge entry rounded to 4 decimals (so
every reported discharge is non-negative), while the general model's flow
accessors return the raw solver slices unrounded. -/
theorem nm_accessors_round_general_accessors_raw :
    (∀ (m : EpexOptimizerNM) (x : List ℚ), m.opt = some x →
      m.get_charges = (slice x (1*m.T) (2*m.T)).map (fun c => pyRound c 4) ∧
      m.get_discharges =
        (slice x 0 (1*m.T)).map (fun dc => pyRound |dc| 4) ∧
      (∀ d ∈ m.get_discharges, 0 ≤ d)) ∧
    (∀ (g : EpexOptimizer) (x : List ℚ) (T : ℕ), g.opt = some x →
        g.T = some T →
      g.get_grid_discharges = .ok (slice x 0 T) ∧
      g.get_selfuse_discharges = .ok (slice x T (2*T)) ∧
      g.get_grid_charges = .ok (slice x (2*T) (3*T)) ∧
      g.get_solar_charges = .ok (slice x (3*T) (4*T)) ∧
      g.get_discharges = .ok (slice x (4*T) (5*T)) ∧
      g.get_charges = .ok (slice x (5*T) (6*T))) := by
  constructor
  · intro m x hopt
    refine ⟨?_, ?_, ?_⟩
    · simp [EpexOptimizerNM.get_charges, hopt]
    · simp [EpexOptimizerNM.get_discharges, hopt]
    · intro d hd
      simp only [EpexOptimizerNM.get_discharges, hopt, List.mem_map] at hd
      obtain ⟨a, _, rfl⟩ := hd
      exact pyRound_nonneg _ _ (abs_nonneg a)
  · intro g x T hopt hT
    refine ⟨?_, ?_, ?_, ?_, ?_, ?_⟩ <;>
      simp [EpexOptimizer.get_grid_discharges,
        EpexOptimizer.get_selfuse_discharges, EpexOptimizer.get_grid_charges,
        EpexOptimizer.get_solar_charges, EpexOptimizer.get_discharges,
        EpexOptimizer.get_charges, EpexOptimizer.getT, hopt, hT]

/-- C10 (witness): the rounding contrast on a concrete one-period
solution vector. -/
theorem nm_accessors_round_general_accessors_raw_witness :
    ({ EpexOptimizerNM.init [1] batteryUnit 0 0 0 with
        opt := some [-(1/3), 1/3, 0, 1] } : EpexOptimizerNM).get_charges =
      (slice [-(1/3), 1/3, 0, 1] (1*1) (2*1)).map (fun c => pyRound c 4) ∧
    ({ EpexOptimizer.init [1] [1] [1] batteryUnit 0 0 0 0 true true 0 "hour"
        with T := some 1, opt := some (List.replicate 8 (1/3)) } :
      EpexOptimizer).get_charges =
      .ok (slice (List.replicate 8 (1/3)) (5*1) (6*1)) :=
  ⟨(nm_accessors_round_general_accessors_raw.1 _ _ rfl).1,
    (nm_accessors_round_general_accessors_raw.2 _ _ 1 rfl rfl).2.2.2.2.2⟩

/-! ## Claim C3: big-M mutual exclusion of charge and discharge -/

theorem getD_nonneg (v : List ℚ) (hv : ∀ y ∈ v, 0 ≤ y) (i : ℕ) :
    0 ≤ v.getD i 0 := by
  by_cases h : i < v.length
  · rw [List.getD_eq_getElem _ _ h]
    exact hv _ (List.getElem_mem h)
  · rw [List.getD_eq_default _ _ (le_of_not_lt h)]

/-- C3: in both models, any decision vector that satisfies the inequality
system with a `{0,1}`-valued per-period flag and non-negative decision
variables never has total charge and total discharge simultaneously
strictly positive in a period — the big-M rows `x_t + M·z_t ≤ M` and
`y_t − M·z_t ≤ 0` force one of them to `0`. -/
theorem big_M_mutual_exclusion :
    (∀ (T : ℕ) (bat : Battery) (el_feedin el_use : List ℚ) (f M : ℚ)
      (v : List ℚ) (t : ℕ), t < T →
      satIneq (epexIneqSystem T bat el_feedin el_use f M) v →
      (∀ y ∈ v, 0 ≤ y) →
      (v.getD (t + 7*T) 0 = 0 ∨ v.getD (t + 7*T) 0 = 1) →
      ¬(0 < v.getD (t + 4*T) 0 ∧ 0 < v.getD (t + 5*T) 0)) ∧
    (∀ (T : ℕ) (bat : Battery) (M : ℚ) (v : List ℚ) (t : ℕ), t < T →
      satIneq (nmIneqSystem T bat M) v →
      (∀ y ∈ v, 0 ≤ y) →
      (v.getD (t + 3*T) 0 = 0 ∨ v.getD (t + 3*T) 0 = 1) →
      ¬(0 < v.getD t 0 ∧ 0 < v.getD (t + T) 0)) := by
  constructor
  · intro T bat el_feedin el_use f M v t ht hsat hnn hz
    have h7 : ((((List.replicate (8*T) (0:ℚ)).set (t + 7*T) M).set
        (t + 4*T) 1, M)) ∈ epexIneqSystem T bat el_feedin el_use f M := by
      unfold epexIneqSystem
      exact List.mem_append_left _ (List.mem_append_right _
        (List.mem_map.mpr ⟨t, List.mem_range.mpr ht, rfl⟩))
    have h8 : ((((List.replicate (8*T) (0:ℚ)).set (t + 7*T) (-M)).set
        (t + 5*T) 1, 0)) ∈ epexIneqSystem T bat el_feedin el_use f M := by
      unfold epexIneqSystem
      exact List.mem_append_right _
        (List.mem_map.mpr ⟨t, List.mem_range.mpr ht, rfl⟩)
    have e7 := hsat _ h7
    have e8 := hsat _ h8
    dsimp only at e7 e8
    rw [dot_double (8*T) (t + 7*T) (t + 4*T) M 1 v (by omega) (by omega)
      (by omega)] at e7
    rw [dot_double (8*T) (t + 7*T) (t + 5*T) (-M) 1 v (by omega) (by omega)
      (by omega)] at e8
    have hx := getD_nonneg v hnn (t + 4*T)
    have hy := getD_nonneg v hnn (t + 5*T)
    rintro ⟨hxpos, hypos⟩
    rcases hz with hz | hz <;> rw [hz] at e7 e8 <;> linarith
  · intro T bat M v t ht hsat hnn hz
    have h5 : ((((List.replicate (4*T) (0:ℚ)).set (t + 3*T) M).set t 1,
        M)) ∈ nmIneqSystem T bat M := by
      unfold nmIneqSystem
      exact List.mem_append_left _ (List.mem_append_right _
        (List.mem_map.mpr ⟨t, List.mem_range.mpr ht, rfl⟩))
    have h6 : ((((List.replicate (4*T) (0:ℚ)).set (t + 3*T) (-M)).set
        (t + T) 1, 0)) ∈ nmIneqSystem T bat M := by
      unfold nmIneqSystem
      exact List.mem_append_right _
        (List.mem_map.mpr ⟨t, List.mem_range.mpr ht, rfl⟩)
    have e5 := hsat _ h5
    have e6 := hsat _ h6
    dsimp only at e5 e6
    rw [dot_double (4*T) (t + 3*T) t M 1 v (by omega) (by omega)
      (by omega)] at e5
    rw [dot_double (4*T) (t + 3*T) (t + T) (-M) 1 v (by omega) (by omega)
      (by omega)] at e6
    have hx := getD_nonneg v hnn t
    have hy := getD_nonneg v hnn (t + T)
    rintro ⟨hxpos, hypos⟩
    rcases hz with hz | hz <;> rw [hz] at e5 e6 <;> linarith

/-- C3 (witness): mutual exclusion evaluated on the all-zero vector of a
one-period instance of each model. -/
theorem big_M_mutual_exclusion_witness :
    ¬(0 < (List.replicate 8 (0:ℚ)).getD (0 + 4*1) 0 ∧
        0 < (List.replicate 8 (0:ℚ)).getD (0 + 5*1) 0) ∧
    ¬(0 < (List.replicate 4 (0:ℚ)).getD 0 0 ∧
        0 < (List.replicate 4 (0:ℚ)).getD (0 + 1) 0) :=
  ⟨big_M_mutual_exclusion.1 1 batteryUnit [1] [1] 1 1000
      (List.replicate 8 0) 0 (by norm_num)
      (by norm_num [satIneq, epexIneqSystem, List.range_succ, dot,
        List.set, List.replicate, batteryUnit])
      (by simp) (Or.inl (by simp [List.getD])),
    big_M_mutual_exclusion.2 1 batteryUnit 10000000
      (List.replicate 4 0) 0 (by norm_num)
      (by norm_num [satIneq, nmIneqSystem, List.range_succ, dot,
        List.set, List.replicate, batteryUnit])
      (by simp) (Or.inl (by simp [List.getD]))⟩

/-! ## Claim C4: degradation to zero schedules without a recorded solution -/

/-- C4 (counterexample): on a freshly constructed general model — the
optimize call has not been made — the schedule accessors and
`compute_yield` raise `AttributeError` (reading the unassigned `self.T`)
instead of returning the zero-filled schedule of length `T`. -/
theorem fresh_general_accessors_raise :
    (EpexOptimizer.init [1] [1] [1] batteryUnit 0 0 0 0 true true 0
      "hour").get_grid_discharges = .error "AttributeError: T" ∧
    (EpexOptimizer.init [1] [1] [1] batteryUnit 0 0 0 0 true true 0
      "hour").compute_yield = .error "AttributeError: T" :=
  ⟨rfl, rfl⟩

/-- C4 (amended): after an optimize call was made and the solver failed
(`opt = None` with `T` assigned), every general-model accessor returns a
zero-filled list of length `T` and `compute_yield` returns
`(0, original_cost)` from the raw inputs; the net-metering model (whose
`T` is assigned at construction) returns zero-filled schedules and yield
`0` whenever no solution is recorded, including before any optimize call;
and a failed solve indeed leaves the models in exactly that state.  Only
the never-optimized general model raises instead. -/
theorem no_solution_accessors_zero :
    (∀ (m : EpexOptimizer) (T : ℕ), m.opt = none → m.T = some T →
      m.get_grid_discharges = .ok (List.replicate T 0) ∧
      m.get_selfuse_discharges = .ok (List.replicate T 0) ∧
      m.get_grid_charges = .ok (List.replicate T 0) ∧
      m.get_solar_charges = .ok (List.replicate T 0) ∧
      m.get_discharges = .ok (List.replicate T 0) ∧
      m.get_charges = .ok (List.replicate T 0) ∧
      m.get_socs = .ok (List.replicate T 0) ∧
      m.compute_yield = .ok (0, m.original_cost T)) ∧
    (∀ n : EpexOptimizerNM, n.opt = none →
      n.get_charges = List.replicate n.T 0 ∧
      n.get_discharges = List.replicate n.T 0 ∧
      n.get_socs = .ok (List.replicate n.T 0) ∧
      n.compute_yield = .ok 0) ∧
    (∀ (m : EpexOptimizer) (f : ℚ)
      (solver : List ℚ → List (List ℚ × ℚ) → List (List ℚ × ℚ) → List ℕ →
        Option (List ℚ)),
      m.interval_fraction = some f →
      (∀ obj A B ints, solver obj A B ints = none) →
      m.LP_optimize solver =
        .ok { m with T := some m.prices.length, opt := none }) ∧
    (∀ (n : EpexOptimizerNM)
      (solver : List ℚ → List (List ℚ × ℚ) → List (List ℚ × ℚ) → List ℕ →
        Option (List ℚ)),
      (∀ obj A B ints, solver obj A B ints = none) →
      (n.LP_optimize solver).opt = none ∧ (n.LP_optimize solver).T = n.T) := by
  refine ⟨?_, ?_, ?_, ?_⟩
  · intro m T hopt hT
    refine ⟨?_, ?_, ?_, ?_, ?_, ?_, ?_, ?_⟩ <;>
      simp [EpexOptimizer.get_grid_discharges,
        EpexOptimizer.get_selfuse_discharges, EpexOptimizer.get_grid_charges,
        EpexOptimizer.get_solar_charges, EpexOptimizer.get_discharges,
        EpexOptimizer.get_charges, EpexOptimizer.get_socs,
        EpexOptimizer.compute_yield, EpexOptimizer.getT, hopt, hT]
  · intro n hopt
    refine ⟨?_, ?_, ?_, ?_⟩ <;>
      simp [EpexOptimizerNM.get_charges, EpexOptimizerNM.get_discharges,
        EpexOptimizerNM.get_socs, EpexOptimizerNM.compute_yield, hopt]
  · intro m f solver hf hsolver
    simp [EpexOptimizer.LP_optimize, hf, hsolver]
  · intro n solver hsolver
    constructor <;> simp [EpexOptimizerNM.LP_optimize, hsolver]

/-- C4 (witness): the degraded outputs on concrete failed/unsolved
states. -/
theorem no_solution_accessors_zero_witness :
    ({ EpexOptimizer.init [1] [1] [1] batteryUnit 0 0 0 0 true true 0
        "hour" with T := some 1 } : EpexOptimizer).get_grid_discharges =
      .ok (List.replicate 1 0) ∧
    (EpexOptimizerNM.init [1] batteryUnit 0 0 0).compute_yield = .ok 0 :=
  ⟨(no_solution_accessors_zero.1 _ 1 rfl rfl).1,
    (no_solution_accessors_zero.2.1 _ rfl).2.2.2⟩

/-! ## Claim C2: the state-of-charge transition recurrence -/

/-- A decision vector for a two-period quarter-hour general-model
instance over the default unit battery (`start_soc = end_soc = 0`):
charge `0.4` kWh from the grid in period 0, discharge `0.4` kWh to the
grid in period 1 (layout `[gx, zx, gy, zy, x, y, s, z]`, two entries per
block). -/
def vQuarter : List ℚ :=
  [0, 2/5, 0, 0, 2/5, 0, 0, 0, 0, 2/5, 2/5, 0, 0, 2/5, 1, 0]

/-- C2 (counterexample): with quarter-hour periods (interval fraction
`0.25`) the equality system is satisfied by `vQuarter`, yet the claimed
recurrence `soc_1 = startSoc + charge_0·(interval/capacity) −
discharge_0·(interval/(capacity·efficiency))` fails on it: the
constraint rows contain no interval factor. -/
theorem soc_recurrence_has_no_interval_factor :
    interval_fraction_of "quarter" = some (1/4) ∧
    satEq (epexEqSystem 2 batteryUnit 0 0 true true) vQuarter ∧
    vQuarter.getD (6*2 + 1) 0 ≠
      0 + vQuarter.getD (5*2) 0 * ((1/4) / batteryUnit.battery_size) -
        vQuarter.getD (4*2) 0 *
          ((1/4) / (batteryUnit.battery_size * batteryUnit.efficiency)) := by
  refine ⟨rfl, ?_, ?_⟩
  · norm_num [satEq, epexEqSystem, List.range_succ, dot, List.set,
      List.replicate, batteryUnit, vQuarter]
  · norm_num [vQuarter, batteryUnit, List.getD]

/-- C2 (amended): in both models, every decision vector satisfying the
equality constraint system obeys the exact recurrence
`soc_{t+1} = soc_t + charge_t/capacity − discharge_t/(capacity·efficiency)`
— the per-period flows are energies in kWh, so no interval factor appears
in the transition (for any interval selector) — with the first transition
anchored at `startSoc` and the transition leaving the last period pinned
to `endSoc` (horizons of at least two periods). -/
theorem soc_recurrence :
    (∀ (T : ℕ) (bat : Battery) (s e : ℚ) (agd agc : Bool) (v : List ℚ),
      2 ≤ T → satEq (epexEqSystem T bat s e agd agc) v →
      (v.getD (6*T + 1) 0 =
        s + v.getD (5*T) 0 / bat.battery_size -
          v.getD (4*T) 0 / (bat.battery_size * bat.efficiency)) ∧
      (∀ i, 1 ≤ i → i < T - 1 →
        v.getD (6*T + i + 1) 0 =
          v.getD (6*T + i) 0 + v.getD (5*T + i) 0 / bat.battery_size -
            v.getD (4*T + i) 0 / (bat.battery_size * bat.efficiency)) ∧
      (e = v.getD (6*T + (T - 1)) 0 +
        v.getD (5*T + (T - 1)) 0 / bat.battery_size -
          v.getD (4*T + (T - 1)) 0 /
            (bat.battery_size * bat.efficiency))) ∧
    (∀ (T : ℕ) (bat : Battery) (s e : ℚ) (v : List ℚ),
      2 ≤ T → satEq (nmEqSystem T bat s e) v →
      (v.getD (2*T + 1) 0 =
        s + v.getD T 0 / bat.battery_size -
          v.getD 0 0 / (bat.battery_size * bat.efficiency)) ∧
      (∀ i, 1 ≤ i → i < T - 1 →
        v.getD (2*T + i + 1) 0 =
          v.getD (2*T + i) 0 + v.getD (T + i) 0 / bat.battery_size -
            v.getD i 0 / (bat.battery_size * bat.efficiency)) ∧
      (e = v.getD (2*T + (T - 1)) 0 +
        v.getD (T + (T - 1)) 0 / bat.battery_size -
          v.getD (T - 1) 0 / (bat.battery_size * bat.efficiency))) := by
  constructor
  · intro T bat s e agd agc v hT hsat
    refine ⟨?_, ?_, ?_⟩
    · have hmem : ((((List.replicate (8*T) (0:ℚ)).set (6*T + 1) 1).set (4*T)
          (1 / (bat.battery_size * bat.efficiency))).set (5*T)
          (-1 / bat.battery_size), s) ∈ epexEqSystem T bat s e agd agc := by
        unfold epexEqSystem
        refine List.mem_append_left _ (List.mem_append_left _
          (List.mem_append_left _ (List.mem_append_left _ ?_)))
        refine List.mem_map.mpr ⟨0, List.mem_range.mpr (by omega), ?_⟩
        simp
      have heq := hsat _ hmem
      dsimp only at heq
      rw [dot_triple (8*T) (6*T + 1) (4*T) (5*T) _ _ _ v (by omega)
        (by omega) (by omega) (by omega) (by omega) (by omega)] at heq
      linear_combination heq
    · intro i hi1 hiT
      have hi0 : ¬ (i = 0) := by omega
      have hmem : (((((List.replicate (8*T) (0:ℚ)).set (6*T + i) (-1)).set
          (6*T + i + 1) 1).set (4*T + i)
          (1 / (bat.battery_size * bat.efficiency))).set (5*T + i)
          (-1 / bat.battery_size), 0) ∈ epexEqSystem T bat s e agd agc := by
        unfold epexEqSystem
        refine List.mem_append_left _ (List.mem_append_left _
          (List.mem_append_left _ (List.mem_append_left _ ?_)))
        refine List.mem_map.mpr ⟨i, List.mem_range.mpr (by omega), ?_⟩
        simp [hi0, hiT]
      have heq := hsat _ hmem
      dsimp only at heq
      rw [dot_quad (8*T) (6*T + i) (6*T + i + 1) (4*T + i) (5*T + i) _ _ _ _ v
        (by omega) (by omega) (by omega) (by omega) (by omega) (by omega)
        (by omega) (by omega) (by omega) (by omega)] at heq
      linear_combination heq
    · have h1 : ¬ (T - 1 = 0) := by omega
      have h2 : ¬ (T - 1 < T - 1) := by omega
      have hmem : ((((List.replicate (8*T) (0:ℚ)).set (6*T + (T - 1))
          (-1)).set (4*T + (T - 1))
          (1 / (bat.battery_size * bat.efficiency))).set (5*T + (T - 1))
          (-1 / bat.battery_size), -e) ∈ epexEqSystem T bat s e agd agc := by
        unfold epexEqSystem
        refine List.mem_append_left _ (List.mem_append_left _
          (List.mem_append_left _ (List.mem_append_left _ ?_)))
        refine List.mem_map.mpr ⟨T - 1, List.mem_range.mpr (by omega), ?_⟩
        simp [h1, h2]
      have heq := hsat _ hmem
      dsimp only at heq
      rw [dot_triple (8*T) (6*T + (T - 1)) (4*T + (T - 1)) (5*T + (T - 1))
        _ _ _ v (by omega) (by omega) (by omega) (by omega) (by omega)
        (by omega)] at heq
      linear_combination heq
  · intro T bat s e v hT hsat
    refine ⟨?_, ?_, ?_⟩
    · have hmem : ((((List.replicate (4*T) (0:ℚ)).set (2*T + 1) 1).set 0
          (1 / (bat.battery_size * bat.efficiency))).set T
          (-1 / bat.battery_size), s) ∈ nmEqSystem T bat s e := by
        unfold nmEqSystem
        refine List.mem_map.mpr ⟨0, List.mem_range.mpr (by omega), ?_⟩
        simp
      have heq := hsat _ hmem
      dsimp only at heq
      rw [dot_triple (4*T) (2*T + 1) 0 T _ _ _ v (by omega) (by omega)
        (by omega) (by omega) (by omega) (by omega)] at heq
      linear_combination heq
    · intro i hi1 hiT
      have hi0 : ¬ (i = 0) := by omega
      have hmem : (((((List.replicate (4*T) (0:ℚ)).set (2*T + i) (-1)).set
          (2*T + i + 1) 1).set i
          (1 / (bat.battery_size * bat.efficiency))).set (T + i)
          (-1 / bat.battery_size), 0) ∈ nmEqSystem T bat s e := by
        unfold nmEqSystem
        refine List.mem_map.mpr ⟨i, List.mem_range.mpr (by omega), ?_⟩
        simp [hi0, hiT]
      have heq := hsat _ hmem
      dsimp only at heq
      rw [dot_quad (4*T) (2*T + i) (2*T + i + 1) i (T + i) _ _ _ _ v
        (by omega) (by omega) (by omega) (by omega) (by omega) (by omega)
        (by omega) (by omega) (by omega) (by omega)] at heq
      linear_combination heq
    · have h1 : ¬ (T - 1 = 0) := by omega
      have h2 : ¬ (T - 1 < T - 1) := by omega
      have hmem : ((((List.replicate (4*T) (0:ℚ)).set (2*T + (T - 1))
          (-1)).set (T - 1)
          (1 / (bat.battery_size * bat.efficiency))).set (T + (T - 1))
          (-1 / bat.battery_size), -e) ∈ nmEqSystem T bat s e := by
        unfold nmEqSystem
        refine List.mem_map.mpr ⟨T - 1, List.mem_range.mpr (by omega), ?_⟩
        simp [h1, h2]
      have heq := hsat _ hmem
      dsimp only at heq
      rw [dot_triple (4*T) (2*T + (T - 1)) (T - 1) (T + (T - 1)) _ _ _ v
        (by omega) (by omega) (by omega) (by omega) (by omega)
        (by omega)] at heq
      linear_combination heq

/-- C2 (witness): the recurrence evaluated on the all-zero solution of a
two-period instance of each model. -/
theorem soc_recurrence_witness :
    ((List.replicate 16 (0:ℚ)).getD (6*2 + 1) 0 =
      0 + (List.replicate 16 (0:ℚ)).getD (5*2) 0 / batteryUnit.battery_size -
        (List.replicate 16 (0:ℚ)).getD (4*2) 0 /
          (batteryUnit.battery_size * batteryUnit.efficiency)) ∧
    ((List.replicate 8 (0:ℚ)).getD (2*2 + 1) 0 =
      0 + (List.replicate 8 (0:ℚ)).getD 2 0 / batteryUnit.battery_size -
        (List.replicate 8 (0:ℚ)).getD 0 0 /
          (batteryUnit.battery_size * batteryUnit.efficiency)) :=
  ⟨(soc_recurrence.1 2 batteryUnit 0 0 true true (List.replicate 16 0)
      (by norm_num)
      (by norm_num [satEq, epexEqSystem, List.range_succ, dot, List.set,
        List.replicate, batteryUnit])).1,
    (soc_recurrence.2 2 batteryUnit 0 0 (List.replicate 8 0) (by norm_num)
      (by norm_num [satEq, nmEqSystem, List.range_succ, dot, List.set,
        List.replicate, batteryUnit])).1⟩

/-! ## Claim C7: yield monotonicity in the cutoff -/

theorem dot_append (a b v : List ℚ) :
    dot (a ++ b) v = dot a v + dot b (v.drop a.length) := by
  induction a generalizing v with
  | nil => simp [dot]
  | cons x a ih =>
    cases v with
    | nil => simp [dot_nil_right]
    | cons y v =>
      rw [List.cons_append, dot_cons_cons, dot_cons_cons, ih,
        List.length_cons, List.drop_succ_cons, add_assoc]

theorem dot_take (p v : List ℚ) : dot p (v.take p.length) = dot p v := by
  induction p generalizing v with
  | nil => simp [dot]
  | cons q p ih =>
    cases v with
    | nil => simp [dot_nil_right]
    | cons y v =>
      rw [List.length_cons, List.take_succ_cons, dot_cons_cons,
        dot_cons_cons, ih]

theorem dot_map_neg_add (p w : List ℚ) (r : ℚ) :
    dot (p.map fun q => -q + r) w =
      -(dot p w) + r * (w.take p.length).sum := by
  induction p generalizing w with
  | nil => simp [dot]
  | cons q p ih =>
    cases w with
    | nil => simp [dot_nil_right]
    | cons y w =>
      rw [List.map_cons, dot_cons_cons, dot_cons_cons, ih,
        List.length_cons, List.take_succ_cons, List.sum_cons]
      ring

/-- A decision vector is feasible for the net-metering MILP: correct
length, non-negative entries (the scipy `linprog` default bounds), the
inequality and equality systems, and an integral flag block (the
integrality mask `[0]*3T + [1]*T`). -/
def nmFeasible (prices : List ℚ) (bat : Battery) (start_soc end_soc M : ℚ)
    (v : List ℚ) : Prop :=
  v.length = 4 * prices.length ∧
  (∀ y ∈ v, 0 ≤ y) ∧
  satIneq (nmIneqSystem prices.length bat M) v ∧
  satEq (nmEqSystem prices.length bat start_soc end_soc) v ∧
  (∀ t < prices.length, ∃ k : ℤ, v.getD (3 * prices.length + t) 0 = (k : ℚ))

/-- A feasible vector minimizing the built objective over all feasible
vectors — what "the solver returns an optimal solution" means. -/
def nmOptimal (prices : List ℚ) (bat : Battery)
    (start_soc end_soc M cutoff : ℚ) (v : List ℚ) : Prop :=
  nmFeasible prices bat start_soc end_soc M v ∧
  ∀ w, nmFeasible prices bat start_soc end_soc M w →
    dot (nmObjective prices bat cutoff) v ≤ dot (nmObjective prices bat cutoff) w

/-- The exact (unrounded) yield `Σ_t price_t·(discharge_t − charge_t)` of
a solution vector — `compute_yield` before the 4-decimal rounding of the
accessors. -/
def nmExactYield (prices v : List ℚ) : ℚ :=
  dot prices (slice v 0 prices.length) -
    dot prices (slice v prices.length (2 * prices.length))

/-- The built objective value decomposes as
`-(exact yield) + cutoffRate · (total discharge)`. -/
theorem dot_nmObjective (prices : List ℚ) (bat : Battery) (c : ℚ)
    (v : List ℚ) :
    dot (nmObjective prices bat c) v =
      -(nmExactYield prices v) +
        (c / ((bat.max_soc - bat.min_soc) * bat.battery_size *
          bat.efficiency)) * (v.take prices.length).sum := by
  have hobj : nmObjective prices bat c =
      (prices.map fun q => -q + c /
        ((bat.max_soc - bat.min_soc) * bat.battery_size *
          bat.efficiency)) ++
        (prices ++ List.replicate (2 * prices.length) 0) := by
    simp [nmObjective, List.append_assoc]
  rw [hobj, dot_append, dot_append, dot_map_neg_add, dot_replicate_zero,
    add_zero, List.length_map]
  unfold nmExactYield slice
  have h2T : 2 * prices.length - prices.length = prices.length := by omega
  rw [Nat.sub_zero, List.drop_zero, h2T, dot_take, dot_take]
  ring

/-- C7 (amended): the EXACT yield of optimal solutions is monotonically
non-increasing in the cutoff: for cutoffs `0 ≤ c1 < c2`, with positive
`effectiveCapacity·efficiency`, any solution optimal at `c2` has exact
yield at most that of any solution optimal at `c1` (cross-optimality
against each other is all the proof needs; feasibility does not depend on
the cutoff).  The 4-decimal rounding applied by `compute_yield`'s
accessors can however reverse the comparison within rounding tolerance —
see the counterexample. -/
theorem exact_yield_monotone_in_cutoff (prices : List ℚ) (bat : Battery)
    (start_soc end_soc M c1 c2 : ℚ) (v1 v2 : List ℚ)
    (hc1 : 0 ≤ c1) (hlt : c1 < c2)
    (hD : 0 < (bat.max_soc - bat.min_soc) * bat.battery_size *
      bat.efficiency)
    (_hf1 : nmFeasible prices bat start_soc end_soc M v1)
    (_hf2 : nmFeasible prices bat start_soc end_soc M v2)
    (h1 : dot (nmObjective prices bat c1) v1 ≤
      dot (nmObjective prices bat c1) v2)
    (h2 : dot (nmObjective prices bat c2) v2 ≤
      dot (nmObjective prices bat c2) v1) :
    nmExactYield prices v2 ≤ nmExactYield prices v1 := by
  rw [dot_nmObjective, dot_nmObjective] at h1 h2
  set D := (bat.max_soc - bat.min_soc) * bat.battery_size * bat.efficiency
  set Y1 := nmExactYield prices v1
  set Y2 := nmExactYield prices v2
  set X1 := (v1.take prices.length).sum
  set X2 := (v2.take prices.length).sum
  have hr1 : 0 ≤ c1 / D := div_nonneg hc1 hD.le
  have hr : c1 / D < c2 / D := by
    have h := div_pos (sub_pos.mpr hlt) hD
    rw [sub_div] at h
    linarith
  have hX : X2 ≤ X1 := by
    by_contra hX
    push_neg at hX
    nlinarith [mul_pos (sub_pos.mpr hr) (sub_pos.mpr hX)]
  nlinarith [mul_nonneg hr1 (sub_nonneg.mpr hX)]

/-- C7 (amended, witness): the monotonicity theorem applied to the
all-zero optimal solutions of a one-period instance with cutoffs `0 < 1`. -/
theorem exact_yield_monotone_in_cutoff_witness :
    nmExactYield [1] (List.replicate 4 0) ≤
      nmExactYield [1] (List.replicate 4 0) := by
  have hfeas : nmFeasible [1] batteryUnit 0 0 10000000 (List.replicate 4 0) := by
    refine ⟨by norm_num, by norm_num, ?_, ?_, ?_⟩
    · norm_num [satIneq, nmIneqSystem, List.range_succ, dot, List.set,
        List.replicate, batteryUnit]
    · norm_num [satEq, nmEqSystem, List.range_succ, dot, List.set,
        List.replicate, batteryUnit]
    · intro t ht
      refine ⟨0, ?_⟩
      rw [getD_replicate_zero]
      norm_num
  exact exact_yield_monotone_in_cutoff [1] batteryUnit 0 0 10000000 0 1
    (List.replicate 4 0) (List.replicate 4 0) (by norm_num) (by norm_num)
    (by norm_num [batteryUnit]) hfeas hfeas le_rfl le_rfl

/-- Two-period prices `[1, 3]` for the cutoff counterexample. -/
def pricesC7 : List ℚ := [1, 3]

/-- `Battery(1, 0, 1, 1, 0.00006, 0.5)`: unit capacity, full soc range,
tiny charge power, efficiency one half. -/
def batteryC7 : Battery :=
  { min_soc := 0
    max_soc := 1
    battery_size := 1
    max_discharge_power := 1
    max_charge_power := 6/100000
    discharge_ratio := 1
    charge_ratio := 0
    efficiency := 1/2 }

theorem batteryC7_from_init :
    Battery.init 1 0 1 1 (6/100000) (1/2) = .ok batteryC7 := by
  norm_num [Battery.init, batteryC7, pyRound, roundHalfEven]

/-- The unique optimal flows at cutoff `0`: charge `0.00006` kWh in
period 0, discharge the recoverable `0.00003` kWh in period 1 (layout
`[x0, x1, y0, y1, s0, s1, z0, z1]`). -/
def v1C7 : List ℚ := [0, 3/100000, 6/100000, 0, 0, 6/100000, 1, 0]

/-- The optimal solution at cutoff `1`: do nothing. -/
def v2C7 : List ℚ := [0, 0, 0, 0, 0, 0, 0, 0]

/-- Any vector feasible for the two-period counterexample instance is an
explicit 8-tuple satisfying the scalar constraints the optimality
arguments need. -/
theorem nmFeasibleC7_destruct (w : List ℚ)
    (hw : nmFeasible pricesC7 batteryC7 0 0 10000000 w) :
    ∃ x0 x1 y0 y1 s0 s1 z0 z1 : ℚ,
      w = [x0, x1, y0, y1, s0, s1, z0, z1] ∧
      0 ≤ x0 ∧ 0 ≤ x1 ∧ 0 ≤ y0 ∧ 0 ≤ y1 ∧ y0 ≤ 6/100000 ∧
      s1 + 2*x0 - y0 = 0 ∧ -s1 + 2*x1 - y1 = 0 := by
  obtain ⟨hlen, hnn, hineq, heq, _⟩ := hw
  rcases w with _ | ⟨x0, w⟩; · simp [pricesC7] at hlen
  rcases w with _ | ⟨x1, w⟩; · simp [pricesC7] at hlen
  rcases w with _ | ⟨y0, w⟩; · simp [pricesC7] at hlen
  rcases w with _ | ⟨y1, w⟩; · simp [pricesC7] at hlen
  rcases w with _ | ⟨s0, w⟩; · simp [pricesC7] at hlen
  rcases w with _ | ⟨s1, w⟩; · simp [pricesC7] at hlen
  rcases w with _ | ⟨z0, w⟩; · simp [pricesC7] at hlen
  rcases w with _ | ⟨z1, w⟩; · simp [pricesC7] at hlen
  rcases w with _ | ⟨u, w⟩
  swap; · simp [pricesC7] at hlen
  refine ⟨x0, x1, y0, y1, s0, s1, z0, z1, rfl, ?_, ?_, ?_, ?_, ?_, ?_, ?_⟩
  · exact hnn x0 (by simp)
  · exact hnn x1 (by simp)
  · exact hnn y0 (by simp)
  · exact hnn y1 (by simp)
  · have hm : (((List.replicate 8 (0:ℚ)).set 2 1, (6:ℚ)/100000)) ∈
        nmIneqSystem pricesC7.length batteryC7 10000000 := by
      unfold nmIneqSystem pricesC7
      refine List.mem_append_left _ (List.mem_append_left _
        (List.mem_append_left _ (List.mem_append_left _
          (List.mem_append_right _ ?_))))
      refine List.mem_map.mpr ⟨0, List.mem_range.mpr (by norm_num), ?_⟩
      norm_num [batteryC7]
    have h := hineq _ hm
    dsimp only at h
    norm_num [dot, List.set, List.replicate] at h
    linarith
  · have hm : ((((List.replicate 8 (0:ℚ)).set 5 1).set 0 2).set 2 (-1),
        (0:ℚ)) ∈ nmEqSystem pricesC7.length batteryC7 0 0 := by
      unfold nmEqSystem pricesC7
      refine List.mem_map.mpr ⟨0, List.mem_range.mpr (by norm_num), ?_⟩
      norm_num [batteryC7]
    have h := heq _ hm
    dsimp only at h
    norm_num [dot, List.set, List.replicate] at h
    linarith
  · have hm : ((((List.replicate 8 (0:ℚ)).set 5 (-1)).set 1 2).set 3 (-1),
        (0:ℚ)) ∈ nmEqSystem pricesC7.length batteryC7 0 0 := by
      unfold nmEqSystem pricesC7
      refine List.mem_map.mpr ⟨1, List.mem_range.mpr (by norm_num), ?_⟩
      norm_num [batteryC7]
    have h := heq _ hm
    dsimp only at h
    norm_num [dot, List.set, List.replicate] at h
    linarith

/-- Whatever optimal solution the solver hands back for this cutoff, the
recorded model reports exactly this yield. -/
def nmReportedYieldAtEveryOptimum (prices : List ℚ) (bat : Battery)
    (start_soc end_soc M cutoff y : ℚ) : Prop :=
  ∀ w, nmOptimal prices bat start_soc end_soc M cutoff w →
    ({ EpexOptimizerNM.init prices bat start_soc end_soc cutoff with
        opt := some w } : EpexOptimizerNM).compute_yield = .ok y

/-- C7 (counterexample): two provably optimal solutions — `v1C7` at
cutoff `0`, `v2C7` (do nothing) at cutoff `1` — whose reported yields
REVERSE the claimed monotonicity: `compute_yield` rounds the charge
`0.00006` up to `0.0001` and the discharge `0.00003` down to `0`, so the
cutoff-`0` run reports yield `-0.0001` while the cutoff-`1` run reports
`0`, although `0 ≤ 1`.  (The exact yields `0.00003 > 0` do satisfy the
claim; only the rounded, reported ones violate it.) -/
theorem computed_yield_not_monotone_in_cutoff :
    nmOptimal pricesC7 batteryC7 0 0 10000000 0 v1C7 ∧
    nmOptimal pricesC7 batteryC7 0 0 10000000 1 v2C7 ∧
    ({ EpexOptimizerNM.init pricesC7 batteryC7 0 0 0 with
        opt := some v1C7 } : EpexOptimizerNM).compute_yield =
      .ok (-(1/10000)) ∧
    ({ EpexOptimizerNM.init pricesC7 batteryC7 0 0 1 with
        opt := some v2C7 } : EpexOptimizerNM).compute_yield = .ok 0 ∧
    nmReportedYieldAtEveryOptimum pricesC7 batteryC7 0 0 10000000 0
      (-(1/10000)) ∧
    nmReportedYieldAtEveryOptimum pricesC7 batteryC7 0 0 10000000 1 0 ∧
    (-(1/10000) : ℚ) < 0 := by
  have hr0 : pyRound |(0:ℚ)| 4 = 0 := by
    unfold pyRound
    rw [abs_zero, show ((0:ℚ) * 10^4) = 0 by norm_num,
      roundHalfEven_eq_floor _ (by norm_num)]
    norm_num
  have hr1 : pyRound |(3:ℚ)/100000| 4 = 0 := by
    unfold pyRound
    rw [abs_of_nonneg (by norm_num : (0:ℚ) ≤ 3/100000),
      show ((3:ℚ)/100000 * 10^4) = 3/10 by norm_num,
      roundHalfEven_eq_floor _ (by norm_num)]
    norm_num
  have hr2 : pyRound ((3:ℚ)/50000) 4 = 1/10000 := by
    unfold pyRound
    rw [show ((3:ℚ)/50000 * 10^4) = 3/5 by norm_num,
      roundHalfEven_eq_floor_add_one _ (by norm_num)]
    norm_num
  have hr3 : pyRound (0:ℚ) 4 = 0 := by
    unfold pyRound
    rw [show ((0:ℚ) * 10^4) = 0 by norm_num,
      roundHalfEven_eq_floor _ (by norm_num)]
    norm_num
  have hfeas1 : nmFeasible pricesC7 batteryC7 0 0 10000000 v1C7 := by
    refine ⟨by norm_num [pricesC7, v1C7], by norm_num [v1C7], ?_, ?_, ?_⟩
    · norm_num [satIneq, nmIneqSystem, List.range_succ, dot, List.set,
        List.replicate, batteryC7, pricesC7, v1C7]
    · norm_num [satEq, nmEqSystem, List.range_succ, dot, List.set,
        List.replicate, batteryC7, pricesC7, v1C7]
    · intro t ht
      simp only [pricesC7, List.length_cons, List.length_nil] at ht
      interval_cases t
      · exact ⟨1, by norm_num [v1C7, pricesC7, List.getD]⟩
      · exact ⟨0, by norm_num [v1C7, pricesC7, List.getD]⟩
  have hfeas2 : nmFeasible pricesC7 batteryC7 0 0 10000000 v2C7 := by
    refine ⟨by norm_num [pricesC7, v2C7], by norm_num [v2C7], ?_, ?_, ?_⟩
    · norm_num [satIneq, nmIneqSystem, List.range_succ, dot, List.set,
        List.replicate, batteryC7, pricesC7, v2C7]
    · norm_num [satEq, nmEqSystem, List.range_succ, dot, List.set,
        List.replicate, batteryC7, pricesC7, v2C7]
    · intro t ht
      simp only [pricesC7, List.length_cons, List.length_nil] at ht
      interval_cases t
      · exact ⟨0, by norm_num [v2C7, pricesC7, List.getD]⟩
      · exact ⟨0, by norm_num [v2C7, pricesC7, List.getD]⟩
  have hopt1 : ∀ w, nmFeasible pricesC7 batteryC7 0 0 10000000 w →
      dot (nmObjective pricesC7 batteryC7 0) v1C7 ≤
        dot (nmObjective pricesC7 batteryC7 0) w := by
    intro w hw
    obtain ⟨x0, x1, y0, y1, s0, s1, z0, z1, rfl, hx0, hx1, hy0, hy1,
      hy0le, he1, he2⟩ := nmFeasibleC7_destruct w hw
    norm_num [nmObjective, dot, batteryC7, pricesC7, v1C7, List.replicate]
    linarith
  have hopt2 : ∀ w, nmFeasible pricesC7 batteryC7 0 0 10000000 w →
      dot (nmObjective pricesC7 batteryC7 1) v2C7 ≤
        dot (nmObjective pricesC7 batteryC7 1) w := by
    intro w hw
    obtain ⟨x0, x1, y0, y1, s0, s1, z0, z1, rfl, hx0, hx1, hy0, hy1,
      hy0le, he1, he2⟩ := nmFeasibleC7_destruct w hw
    norm_num [nmObjective, dot, batteryC7, pricesC7, v2C7, List.replicate]
    linarith
  refine ⟨⟨hfeas1, hopt1⟩, ⟨hfeas2, hopt2⟩, ?_, ?_, ?_, ?_, by norm_num⟩
  · norm_num [EpexOptimizerNM.compute_yield, EpexOptimizerNM.get_discharges,
      EpexOptimizerNM.get_charges, EpexOptimizerNM.get_socs,
      EpexOptimizerNM.init, slice, v1C7, pricesC7,
      List.range_succ, List.getD, hr0, hr1, hr2, hr3]
  · norm_num [EpexOptimizerNM.compute_yield, EpexOptimizerNM.get_discharges,
      EpexOptimizerNM.get_charges, EpexOptimizerNM.get_socs,
      EpexOptimizerNM.init, slice, v2C7, pricesC7,
      List.range_succ, List.getD, hr0, hr1, hr2, hr3]
  · intro w hw
    obtain ⟨hfeas, hmin⟩ := hw
    have hub := hmin v1C7 hfeas1
    obtain ⟨x0, x1, y0, y1, s0, s1, z0, z1, rfl, hx0, hx1, hy0, hy1,
      hy0le, he1, he2⟩ := nmFeasibleC7_destruct _ hfeas
    norm_num [nmObjective, dot, batteryC7, pricesC7, v1C7,
      List.replicate] at hub
    have hx0z : x0 = 0 := by linarith
    have hy1z : y1 = 0 := by linarith
    subst hx0z
    subst hy1z
    have hy0e : y0 = 6/100000 := by linarith
    subst hy0e
    have hs1 : s1 = 6/100000 := by linarith
    subst hs1
    have hx1e : x1 = 3/100000 := by linarith
    subst hx1e
    norm_num [EpexOptimizerNM.compute_yield, EpexOptimizerNM.get_discharges,
      EpexOptimizerNM.get_charges, EpexOptimizerNM.get_socs,
      EpexOptimizerNM.init, slice, pricesC7,
      List.range_succ, List.getD, hr0, hr1, hr2, hr3]
  · intro w hw
    obtain ⟨hfeas, hmin⟩ := hw
    have hub := hmin v2C7 hfeas2
    obtain ⟨x0, x1, y0, y1, s0, s1, z0, z1, rfl, hx0, hx1, hy0, hy1,
      hy0le, he1, he2⟩ := nmFeasibleC7_destruct _ hfeas
    norm_num [nmObjective, dot, batteryC7, pricesC7, v2C7,
      List.replicate] at hub
    have hx0z : x0 = 0 := by linarith
    have hy1z : y1 = 0 := by linarith
    subst hx0z
    subst hy1z
    have hy0e : y0 = 0 := by linarith
    subst hy0e
    have hs1 : s1 = 0 := by linarith
    subst hs1
    have hx1e : x1 = 0 := by linarith
    subst hx1e
    norm_num [EpexOptimizerNM.compute_yield, EpexOptimizerNM.get_discharges,
      EpexOptimizerNM.get_charges, EpexOptimizerNM.get_socs,
      EpexOptimizerNM.init, slice, pricesC7,
      List.range_succ, List.getD, hr0, hr1, hr2, hr3]

end Wattflex
